import Mathlib

set_option maxRecDepth 10000

namespace Gopyter

/-- Lexical scanner modes of ReadMultiline (read.go, type mode). -/
inductive Mode where
  | mNormal
  | mPlus
  | mMinus
  | mRune
  | mString
  | mRuneEscape
  | mStringEscape
  | mRawString
  | mSlash
  | mHash
  | mLineComment
  | mComment
  | mCommentStar
  | mTilde
  deriving DecidableEq

/-- Scanner state threaded through the character loop of ReadMultiline:
mode, paren depth, the ignorenl flag, and the first and last token offsets
(offset -1 is the none sentinel, as in the source). -/
structure ScanState where
  m : Mode
  paren : Int
  ignorenl : Bool
  firstToken : Int
  lastToken : Int
  deriving DecidableEq

/-- The state at the top of ReadMultiline: mode mNormal, paren 0,
ignorenl false, firstToken and lastToken -1. -/
def initState : ScanState :=
  ⟨Mode.mNormal, 0, false, -1, -1⟩

/-- The resetnl closure of ReadMultiline (read.go lines 173 to 177):
true exactly when the ignorenl flag is to be cleared after a character,
namely when paren is nonzero or the mode is none of mNormal, mSlash,
mHash, mLineComment, mComment, mCommentStar. -/
def resetnl (paren : Int) (m : Mode) : Bool :=
  decide (paren ≠ 0) ||
    (decide (m ≠ Mode.mNormal) && decide (m ≠ Mode.mSlash) &&
      decide (m ≠ Mode.mHash) && decide (m ≠ Mode.mLineComment) &&
      decide (m ≠ Mode.mComment) && decide (m ≠ Mode.mCommentStar))

/-- The foundtoken closure of ReadMultiline (read.go lines 178 to 186):
records the last token position (buffer length plus position in the line)
and sets the first token position when still unset. -/
def foundtoken (bufLen : Nat) (pos : Int) (s : ScanState) : ScanState :=
  let lt : Int := (bufLen : Int) + pos
  { s with lastToken := lt,
           firstToken := if s.firstToken < 0 then lt else s.firstToken }

/-- Which kind of literal an invalid control character was found inside,
matching the ctx argument of the invalidChar closure. -/
inductive LitCtx where
  | rune
  | str
  deriving DecidableEq

/-- Control outcome of the character switch of ReadMultiline for one
character: proceed to the resetnl and token check (fall out of the switch),
skip them (a continue statement), skip with the shebang in-place rewrite of
the previous and current bytes to slashes, or fail with an invalid literal
character. -/
inductive StepOut where
  | proceed (s : ScanState)
  | skip (s : ScanState)
  | rewriteSkip (s : ScanState)
  | err (ctx : LitCtx)
  deriving DecidableEq

/-- The mNormal case of the character switch in ReadMultiline
(read.go lines 222 to 259); also the target of the fallthrough from the
mPlus and mMinus case. Byte values: 40 91 123 openers, 41 93 125 closers,
39 quote, 34 double quote, 96 backquote, 47 slash, 35 hash, 126 tilde,
then the operator characters, 43 plus, 45 minus, and 32 is the space. -/
def normalStep (s : ScanState) (c : Nat) : StepOut :=
  if c = 40 ∨ c = 91 ∨ c = 123 then
    StepOut.proceed { s with paren := s.paren + 1 }
  else if c = 41 ∨ c = 93 ∨ c = 125 then
    StepOut.proceed { s with paren := s.paren - 1 }
  else if c = 39 then
    StepOut.proceed { s with m := Mode.mRune }
  else if c = 34 then
    StepOut.proceed { s with m := Mode.mString }
  else if c = 96 then
    StepOut.proceed { s with m := Mode.mRawString }
  else if c = 47 then
    StepOut.skip { s with m := Mode.mSlash }
  else if c = 35 then
    StepOut.skip { s with m := Mode.mHash }
  else if c = 126 then
    StepOut.proceed { s with m := Mode.mTilde }
  else if c = 33 ∨ c = 37 ∨ c = 38 ∨ c = 42 ∨ c = 44 ∨ c = 46 ∨
      c = 60 ∨ c = 61 ∨ c = 62 ∨ c = 94 ∨ c = 124 then
    StepOut.proceed { s with ignorenl := decide (s.paren = 0) }
  else if c = 43 then
    StepOut.proceed { s with ignorenl := false,
                             m := if s.paren = 0 then Mode.mPlus else s.m }
  else if c = 45 then
    StepOut.proceed { s with ignorenl := false,
                             m := if s.paren = 0 then Mode.mMinus else s.m }
  else if c ≤ 32 then
    StepOut.skip s
  else
    StepOut.proceed { s with ignorenl := false }

/-- The full character switch of ReadMultiline (read.go lines 199 to 342),
one case per mode; bufLen and i are needed for the foundtoken calls made
inside the mSlash and mHash cases. -/
def stepCore (bufLen : Nat) (i : Nat) (s : ScanState) (c : Nat) : StepOut :=
  match s.m with
  | Mode.mPlus | Mode.mMinus =>
    if c = 43 then
      StepOut.proceed
        { s with m := if s.m = Mode.mPlus then Mode.mNormal else Mode.mPlus }
    else if c = 45 then
      StepOut.proceed
        { s with m := if s.m = Mode.mMinus then Mode.mNormal else Mode.mMinus }
    else
      let s1 := { s with m := Mode.mNormal, ignorenl := true }
      if c ≤ 32 then StepOut.skip s1 else normalStep s1 c
  | Mode.mNormal => normalStep s c
  | Mode.mRune =>
    if c = 92 then StepOut.proceed { s with m := Mode.mRuneEscape }
    else if c = 39 then StepOut.proceed { s with m := Mode.mNormal }
    else if c < 32 then StepOut.err LitCtx.rune
    else StepOut.proceed s
  | Mode.mRuneEscape =>
    if c < 32 then StepOut.err LitCtx.rune
    else StepOut.proceed { s with m := Mode.mRune }
  | Mode.mString =>
    if c = 92 then StepOut.proceed { s with m := Mode.mStringEscape }
    else if c = 34 then StepOut.proceed { s with m := Mode.mNormal }
    else if c < 32 then StepOut.err LitCtx.str
    else StepOut.proceed s
  | Mode.mStringEscape =>
    if c < 32 then StepOut.err LitCtx.str
    else StepOut.proceed { s with m := Mode.mString }
  | Mode.mRawString =>
    if c = 96 then StepOut.proceed { s with m := Mode.mNormal }
    else StepOut.proceed s
  | Mode.mSlash =>
    if c = 47 then StepOut.skip { s with m := Mode.mLineComment }
    else if c = 42 then StepOut.skip { s with m := Mode.mComment }
    else
      let s1 := { s with m := Mode.mNormal }
      if c ≤ 32 then StepOut.proceed { s1 with ignorenl := true }
      else StepOut.proceed (foundtoken bufLen ((i : Int) - 1) s1)
  | Mode.mHash =>
    if c = 33 then StepOut.rewriteSkip { s with m := Mode.mLineComment }
    else StepOut.proceed (foundtoken bufLen ((i : Int) - 1) { s with m := Mode.mNormal })
  | Mode.mLineComment => StepOut.skip s
  | Mode.mComment =>
    StepOut.skip (if c = 42 then { s with m := Mode.mCommentStar } else s)
  | Mode.mCommentStar =>
    StepOut.skip { s with m := if c = 47 then Mode.mNormal else Mode.mComment }
  | Mode.mTilde => StepOut.proceed { s with m := Mode.mNormal }

/-- The code run after the switch for characters that were not skipped by a
continue (read.go lines 346 to 354): clear ignorenl when resetnl holds on
the updated state, then record a token position for a non-whitespace byte. -/
def stepTail (bufLen : Nat) (i : Nat) (s : ScanState) (c : Nat) : ScanState :=
  let s1 := if resetnl s.paren s.m then { s with ignorenl := false } else s
  if 32 < c then foundtoken bufLen (i : Int) s1 else s1

/-- The complete processing of one character: the switch, followed by the
resetnl and token check when the switch fell through. -/
def procChar (bufLen : Nat) (i : Nat) (s : ScanState) (c : Nat) : StepOut :=
  match stepCore bufLen i s c with
  | StepOut.proceed s1 => StepOut.proceed (stepTail bufLen i s1 c)
  | o => o

/-- Result of scanning one line: the (possibly shebang-rewritten) line with
the final state, or an invalid-literal failure carrying the line bytes
before the offending character, the firstToken value at that moment, the
offending byte and the literal kind. -/
inductive LineOut where
  | ok (line : List Nat) (s : ScanState)
  | fail (sofar : List Nat) (firstToken : Int) (ch : Nat) (ctx : LitCtx)
  deriving DecidableEq

/-- The character loop of ReadMultiline over one line; done holds the
already-processed bytes in reverse (so the shebang rewrite can patch the
previous byte), i the current index, rem the bytes still to process. -/
def scanLineAux (bufLen : Nat) : List Nat → List Nat → Nat → ScanState → LineOut
  | done, [], _, s => LineOut.ok done.reverse s
  | done, c :: rem, i, s =>
    match procChar bufLen i s c with
    | StepOut.err ctx => LineOut.fail done.reverse s.firstToken c ctx
    | StepOut.skip s1 => scanLineAux bufLen (c :: done) rem (i + 1) s1
    | StepOut.rewriteSkip s1 => scanLineAux bufLen (47 :: 47 :: done.tail) rem (i + 1) s1
    | StepOut.proceed s1 => scanLineAux bufLen (c :: done) rem (i + 1) s1

/-- Scan one full line starting at index 0. -/
def scanLine (bufLen : Nat) (line : List Nat) (s : ScanState) : LineOut :=
  scanLineAux bufLen [] line 0 s

/-- Replacement of the 3-byte Unicode paragraph separator 226 128 169 by a
newline byte, as bytes.Replace does in read.go line 194: non-overlapping
occurrences, left to right. pend counts how many bytes of a candidate
separator have been seen (0, 1 for 226, 2 for 226 128). -/
def replacePSAux : Nat → List Nat → List Nat
  | pend, [] => if pend = 1 then [226] else if pend = 2 then [226, 128] else []
  | pend, c :: cs =>
    if pend = 0 then
      if c = 226 then replacePSAux 1 cs else c :: replacePSAux 0 cs
    else if pend = 1 then
      if c = 128 then replacePSAux 2 cs
      else if c = 226 then 226 :: replacePSAux 1 cs
      else 226 :: c :: replacePSAux 0 cs
    else
      if c = 169 then 10 :: replacePSAux 0 cs
      else if c = 226 then 226 :: 128 :: replacePSAux 1 cs
      else 226 :: 128 :: c :: replacePSAux 0 cs

/-- Paragraph separator replacement over a whole line. -/
def replacePS (line : List Nat) : List Nat := replacePSAux 0 line

/-- The terminal condition of the underlying reader: a clean end of stream
or some other input error, identified by a code. -/
inductive StreamErr where
  | eof
  | other (code : Nat)
  deriving DecidableEq

/-- The input stream backing the buffered reader: the bytes still to be
delivered, and the error reported once they are exhausted. -/
structure InStream where
  bytes : List Nat
  endErr : StreamErr
  deriving DecidableEq

/-- Split off one line up to and including the first newline byte; the Bool
tells whether a newline was found. -/
def splitLine : List Nat → List Nat × List Nat × Bool
  | [] => ([], [], false)
  | c :: cs =>
    if c = 10 then ([10], cs, true)
    else
      match splitLine cs with
      | (l, r, f) => (c :: l, r, f)

/-- bufio ReadBytes up to a newline: when the delimiter is found the line is
returned with no error; otherwise whatever was read is returned together
with the terminal error of the stream. -/
def readLine (st : InStream) : List Nat × Option StreamErr × InStream :=
  match splitLine st.bytes with
  | (l, r, true) => (l, none, ⟨r, st.endErr⟩)
  | (l, _, false) => (l, some st.endErr, ⟨[], st.endErr⟩)

/-- Map a byte list to a word for the keyword lookup. -/
def strBytes (s : String) : List Nat := s.data.map Char.toNat

/-- Modelled from the spec: the reserved-word lookup mt.Lookup used by
lastIsKeywordIgnoresNl lives in a package that is not part of the inspected
source. Per the spec (keyword classification, sections 4.3 and 6) it
classifies a lowercase word against the reserved-word table of the target
Go grammar; these are the reserved words of that grammar. -/
def reservedWords : List (List Nat) :=
  [strBytes "break", strBytes "case", strBytes "chan", strBytes "const",
   strBytes "continue", strBytes "default", strBytes "defer", strBytes "else",
   strBytes "fallthrough", strBytes "for", strBytes "func", strBytes "go",
   strBytes "goto", strBytes "if", strBytes "import", strBytes "interface",
   strBytes "map", strBytes "package", strBytes "range", strBytes "return",
   strBytes "select", strBytes "struct", strBytes "switch", strBytes "type",
   strBytes "var"]

/-- Modelled from the spec: the closed set of statement-terminal keywords
that do not force continuation, per the spec {break, continue, fallthrough,
return} (a plain identifier does not force continuation either). -/
def terminalWords : List (List Nat) :=
  [strBytes "break", strBytes "continue", strBytes "fallthrough", strBytes "return"]

/-- Modelled from the spec: the keyword switch at the end of
lastIsKeywordIgnoresNl. A word forces continuation exactly when it is a
reserved keyword outside the statement-terminal set; any other word is an
ordinary identifier and does not. -/
def keywordIgnoresNl (w : List Nat) : Bool :=
  reservedWords.contains w && !(terminalWords.contains w)

/-- Outcome of the first backward loop of lastIsKeywordIgnoresNl: a
non-whitespace non-lowercase byte was hit first (hard, the function returns
false), the whole line was whitespace (exhausted), or the index of a
lowercase byte counted from the end of the line. -/
inductive TailScan where
  | hard
  | exhausted
  | found (j : Nat)
  deriving DecidableEq

/-- First backward loop of lastIsKeywordIgnoresNl (read.go lines 407 to
416), run on the reversed line: skip whitespace, stop at the first
lowercase letter, fail on anything else. -/
def findLowerRev : List Nat → TailScan
  | [] => TailScan.exhausted
  | c :: cs =>
    if c ≤ 32 then
      match findLowerRev cs with
      | TailScan.found j => TailScan.found (j + 1)
      | r => r
    else if 97 ≤ c ∧ c ≤ 122 then TailScan.found 0
    else TailScan.hard

/-- Length of the leading run of lowercase letters, used for the second
backward loop of lastIsKeywordIgnoresNl (read.go lines 417 to 423). -/
def lcRun : List Nat → Nat
  | [] => 0
  | c :: cs => if 97 ≤ c ∧ c ≤ 122 then lcRun cs + 1 else 0

/-- lastIsKeywordIgnoresNl (read.go lines 398 to 436): truncate the line to
the last token when that offset lies inside it, drop up to the first token
when that offset lies inside it, extract the trailing maximal run of
lowercase letters, and ask the keyword table whether it forces
continuation. -/
def lastIsKeywordIgnoresNl (line : List Nat) (first last : Int) : Bool :=
  let l1 :=
    if 0 ≤ last ∧ last < (line.length : Int) then line.take (last.toNat + 1) else line
  let l2 :=
    if 0 ≤ first ∧ first ≤ (l1.length : Int) then l1.drop first.toNat else l1
  match findLowerRev l2.reverse with
  | TailScan.hard => false
  | TailScan.exhausted => keywordIgnoresNl []
  | TailScan.found j =>
    let e := l2.length - j
    let start := e - lcRun (l2.take e).reverse
    keywordIgnoresNl ((l2.take e).drop start)

/-- The errors ReadMultiline can return: the invalid-literal-character
error built by invalidChar, the unexpected end of input error substituted
for a clean EOF under open brackets, or the underlying reader error passed
through unchanged. -/
inductive ReadErr where
  | invalidLit (ch : Nat) (ctx : LitCtx)
  | unexpectedEOF
  | ioError (e : StreamErr)
  deriving DecidableEq

/-- The triple returned by ReadMultiline: accumulated source bytes, first
token offset (-1 for none), and the error if any. -/
structure ReadResult where
  src : List Nat
  firstToken : Int
  err : Option ReadErr
  deriving DecidableEq

/-- The reset of a pending mPlus or mMinus at the end of a line
(read.go lines 373 to 375). -/
def resetPM (s : ScanState) : ScanState :=
  if s.m = Mode.mPlus ∨ s.m = Mode.mMinus then { s with m := Mode.mNormal } else s

/-- The line loop of ReadMultiline (read.go lines 192 to 395): read a line,
replace paragraph separators, scan its characters, append it, force a line
comment closed at end of line, then either return on a reader error
(substituting unexpectedEOF for a clean EOF under open brackets), stop when
the completion condition holds and the trailing keyword does not force
continuation, or loop. The fuel is an upper bound on the number of lines,
supplied by ReadMultiline. -/
def loopLines (optAllComments : Bool) :
    Nat → InStream → ScanState → List Nat → ReadResult
  | 0, _, s, buf => ⟨buf, s.firstToken, none⟩
  | fuel + 1, st, s, buf =>
    match readLine st with
    | (line0, rerr, st1) =>
      match scanLine buf.length (replacePS line0) s with
      | LineOut.fail sofar ft ch ctx =>
        ⟨buf ++ sofar, ft, some (ReadErr.invalidLit ch ctx)⟩
      | LineOut.ok line2 sA =>
        let buf2 := buf ++ line2
        let s2 := if sA.m = Mode.mLineComment then { sA with m := Mode.mNormal } else sA
        match rerr with
        | some e =>
          ⟨buf2, s2.firstToken,
            some (if e = StreamErr.eof ∧ 0 < s2.paren then ReadErr.unexpectedEOF
                  else ReadErr.ioError e)⟩
        | none =>
          if s2.paren ≤ 0 ∧ s2.ignorenl = false ∧ s2.m = Mode.mNormal ∧
              (0 ≤ s2.firstToken ∨ optAllComments = false) then
            if 0 ≤ s2.firstToken ∧
                lastIsKeywordIgnoresNl line2 s2.firstToken s2.lastToken then
              loopLines optAllComments fuel st1 (resetPM { s2 with ignorenl := true }) buf2
            else ⟨buf2, s2.firstToken, none⟩
          else loopLines optAllComments fuel st1 (resetPM s2) buf2

/-- ReadMultiline (read.go lines 158 to 396), with the prompt output
omitted as pure cosmetics; optAllComments is the ReadOptCollectAllComments
bit. One unit of fuel is spent per line read and every line read without a
reader error consumes at least its newline byte, so bytes plus one bounds
the number of iterations. -/
def ReadMultiline (st : InStream) (optAllComments : Bool) : ReadResult :=
  loopLines optAllComments (st.bytes.length + 1) st initState []

/-- The literal kind named by the invalidChar call raised from a given
literal mode (the ctx string of read.go lines 268, 273, 284, 289). -/
def litCtxOf : Mode → LitCtx
  | Mode.mRune | Mode.mRuneEscape => LitCtx.rune
  | _ => LitCtx.str

/-- The post-switch check never changes the mode. -/
theorem stepTail_m (bufLen i : Nat) (s : ScanState) (c : Nat) :
    (stepTail bufLen i s c).m = s.m := by
  by_cases h : 32 < c <;> by_cases hr : resetnl s.paren s.m <;>
    simp [stepTail, foundtoken, h, hr]

/-- The post-switch check never changes the paren depth. -/
theorem stepTail_paren (bufLen i : Nat) (s : ScanState) (c : Nat) :
    (stepTail bufLen i s c).paren = s.paren := by
  by_cases h : 32 < c <;> by_cases hr : resetnl s.paren s.m <;>
    simp [stepTail, foundtoken, h, hr]

/-- The post-switch check clears ignorenl exactly when resetnl holds of the
updated state and leaves it unchanged otherwise. -/
theorem stepTail_ignorenl (bufLen i : Nat) (s : ScanState) (c : Nat) :
    (stepTail bufLen i s c).ignorenl =
      if resetnl s.paren s.m then false else s.ignorenl := by
  by_cases h : 32 < c <;> by_cases hr : resetnl s.paren s.m <;>
    simp [stepTail, foundtoken, h, hr]

/-- C1 counterexample: processing the line made of an equals sign and a
newline from the initial state ends with mode mNormal, paren 0 and the
ignorenl flag still set: the claimed rule (cleared iff paren at most 0 and
mode among the resolved modes) would have cleared it after each of the two
characters; and resetnl, the actual clearing condition, is false exactly
there. -/
theorem spec_c1_counterexample :
    scanLine 0 (strBytes "=\n") initState =
      LineOut.ok (strBytes "=\n") ⟨Mode.mNormal, 0, true, 0, 0⟩ ∧
    resetnl 0 Mode.mNormal = false := by
  decide

/-- C1 (amended): for every character that falls through to the post-switch
check, the ignorenl flag is cleared exactly when resetnl holds of the
already-updated state, and resetnl holds exactly when parenDepth is nonzero
or the resulting mode is none of mNormal, mSlash, mHash, mLineComment,
mComment, mCommentStar; in every other case the check leaves the flag
unchanged (characters consumed by a continue never reach the check). -/
theorem spec_c1_theorem :
    (∀ (bufLen i : Nat) (s : ScanState) (c : Nat),
      (stepTail bufLen i s c).ignorenl =
        if resetnl s.paren s.m then false else s.ignorenl) ∧
    (∀ (p : Int) (m : Mode),
      resetnl p m = true ↔
        (p ≠ 0 ∨ (m ≠ Mode.mNormal ∧ m ≠ Mode.mSlash ∧ m ≠ Mode.mHash ∧
          m ≠ Mode.mLineComment ∧ m ≠ Mode.mComment ∧ m ≠ Mode.mCommentStar))) := by
  constructor
  · intro bufLen i s c
    by_cases h32 : 32 < c <;> by_cases hr : resetnl s.paren s.m <;>
      simp [stepTail, foundtoken, hr, h32]
  · intro p m
    simp only [resetnl, Bool.or_eq_true, Bool.and_eq_true, decide_eq_true_eq]
    tauto

/-- Witness for C1 at a literal mode where the flag is cleared and at the
concrete instance of the resetnl characterization. -/
theorem spec_c1_witness :
    (stepTail 0 0 ⟨Mode.mString, 0, true, -1, -1⟩ 97).ignorenl =
      (if resetnl (0 : Int) Mode.mString then false else true) ∧
    (resetnl 0 Mode.mString = true ↔
      ((0 : Int) ≠ 0 ∨ (Mode.mString ≠ Mode.mNormal ∧ Mode.mString ≠ Mode.mSlash ∧
        Mode.mString ≠ Mode.mHash ∧ Mode.mString ≠ Mode.mLineComment ∧
        Mode.mString ≠ Mode.mComment ∧ Mode.mString ≠ Mode.mCommentStar))) :=
  ⟨spec_c1_theorem.1 0 0 ⟨Mode.mString, 0, true, -1, -1⟩ 97,
   spec_c1_theorem.2 0 Mode.mString⟩

/-- C2 counterexample: for the input whose first line is a double quote
followed by abc and a literal newline, ReadMultiline fails with the
invalid-literal error, but the returned partial buffer has 4 bytes (up to
but excluding the offending newline), not the 5 bytes read up to and
including it that the claim asserts. -/
theorem spec_c2_counterexample :
    ReadMultiline ⟨strBytes "\"abc\nZZ\n", StreamErr.eof⟩ false =
      ⟨strBytes "\"abc", 0, some (ReadErr.invalidLit 10 LitCtx.str)⟩ ∧
    ¬ (ReadMultiline ⟨strBytes "\"abc\nZZ\n", StreamErr.eof⟩ false).src.length = 5 := by
  decide

/-- C2 (amended): whenever the scanner is inside a rune or string literal
(modes mRune, mString, mRuneEscape, mStringEscape) and meets a byte below
the space, the line scan stops at once with the invalid-literal failure,
whose partial line holds exactly the bytes before the offending character
and whose first-token offset is the value held immediately before the
failure; through the driver the returned buffer is the accumulated text up
to but excluding the offending character. -/
theorem spec_c2_theorem :
    (∀ (bufLen : Nat) (done rem : List Nat) (i : Nat) (s : ScanState) (c : Nat),
      (s.m = Mode.mRune ∨ s.m = Mode.mString ∨ s.m = Mode.mRuneEscape ∨
        s.m = Mode.mStringEscape) →
      c < 32 →
      scanLineAux bufLen done (c :: rem) i s =
        LineOut.fail done.reverse s.firstToken c (litCtxOf s.m)) ∧
    ReadMultiline ⟨strBytes "\"abc\n", StreamErr.eof⟩ false =
      ⟨strBytes "\"abc", 0, some (ReadErr.invalidLit 10 LitCtx.str)⟩ := by
  constructor
  · intro bufLen done rem i s c hm hc
    have h92 : ¬ c = 92 := by omega
    have h39 : ¬ c = 39 := by omega
    have h34 : ¬ c = 34 := by omega
    rcases hm with h | h | h | h <;>
      simp [scanLineAux, procChar, stepCore, litCtxOf, h, h92, h39, h34, hc]
  · decide

/-- Witness for C2 at mode mString and the control byte 10. -/
theorem spec_c2_witness :
    scanLineAux 0 [] [10] 0 ⟨Mode.mString, 0, false, -1, -1⟩ =
      LineOut.fail [] (-1) 10 LitCtx.str :=
  spec_c2_theorem.1 0 [] [] 0 ⟨Mode.mString, 0, false, -1, -1⟩ 10
    (Or.inr (Or.inl rfl)) (by omega)

/-- C3 counterexample: for the input whose first non-whitespace character
is a division slash followed by whitespace (slash, space, newline, then x),
the returned first-token offset is 3 (the x on the second line), not 0 (the
position of the slash) as the claim asserts: a slash resolved by whitespace
is not marked as a token. -/
theorem spec_c3_counterexample :
    ReadMultiline ⟨strBytes "/ \nx\n", StreamErr.eof⟩ false =
      ⟨strBytes "/ \nx\n", 3, none⟩ ∧
    (3 : Int) ≠ 0 := by
  decide

/-- C3 (amended): when a lone slash (mode mSlash) is resolved by a next
character that is neither slash nor star, the mode returns to mNormal; when
the resolving character is non-whitespace the pending slash is
retroactively marked as a found token (setting firstToken if unset, at the
previous position), while when it is whitespace only ignorenl is set (and
the slash is not marked); in particular, for an input whose first
non-whitespace character is a division slash followed by a non-whitespace
character, the returned first-token offset is the position of the slash. -/
theorem spec_c3_theorem :
    (∀ (bufLen i : Nat) (s : ScanState) (c : Nat),
      s.m = Mode.mSlash → ¬ c = 47 → ¬ c = 42 → 32 < c → 1 ≤ i →
      procChar bufLen i s c =
        StepOut.proceed
          { s with m := Mode.mNormal,
                   ignorenl := if s.paren ≠ 0 then false else s.ignorenl,
                   firstToken := if s.firstToken < 0 then (bufLen : Int) + ((i : Int) - 1)
                                 else s.firstToken,
                   lastToken := (bufLen : Int) + (i : Int) }) ∧
    (∀ (bufLen i : Nat) (s : ScanState) (c : Nat),
      s.m = Mode.mSlash → ¬ c = 47 → ¬ c = 42 → c ≤ 32 →
      procChar bufLen i s c =
        StepOut.proceed
          { s with m := Mode.mNormal,
                   ignorenl := if s.paren ≠ 0 then false else true }) ∧
    ReadMultiline ⟨strBytes "/x\n", StreamErr.eof⟩ false =
      ⟨strBytes "/x\n", 0, none⟩ := by
  refine ⟨?_, ?_, by decide⟩
  · intro bufLen i s c hm h47 h42 h32 hi
    obtain ⟨m0, p0, ig0, ft0, lt0⟩ := s
    simp only at hm
    subst hm
    have hn32 : ¬ c ≤ 32 := by omega
    have hpos : ¬ ((bufLen : Int) + ((i : Int) - 1) < 0) := by omega
    simp only [procChar, stepCore, if_neg h47, if_neg h42, if_neg hn32,
      stepTail, foundtoken, resetnl]
    simp only [ne_eq, decide_not]
    by_cases hp : p0 = 0 <;> by_cases hf : ft0 < 0 <;>
      simp [hp, hf, h32, hpos]
  · intro bufLen i s c hm h47 h42 hc
    obtain ⟨m0, p0, ig0, ft0, lt0⟩ := s
    simp only at hm
    subst hm
    have hn32 : ¬ 32 < c := by omega
    simp only [procChar, stepCore, if_neg h47, if_neg h42, if_pos hc,
      stepTail, foundtoken, resetnl, if_neg hn32]
    by_cases hp : p0 = 0 <;> simp [hp]

/-- Witness for C3: a slash resolved by the letter x is marked as a token
at the previous position, a slash resolved by a space only sets ignorenl. -/
theorem spec_c3_witness :
    procChar 0 1 ⟨Mode.mSlash, 0, false, -1, -1⟩ 120 =
      StepOut.proceed ⟨Mode.mNormal, 0, false, 0, 1⟩ ∧
    procChar 0 1 ⟨Mode.mSlash, 0, false, -1, -1⟩ 32 =
      StepOut.proceed ⟨Mode.mNormal, 0, true, -1, -1⟩ :=
  ⟨spec_c3_theorem.1 0 1 ⟨Mode.mSlash, 0, false, -1, -1⟩ 120
      rfl (by decide) (by decide) (by decide) (by decide),
   spec_c3_theorem.2.1 0 1 ⟨Mode.mSlash, 0, false, -1, -1⟩ 32
      rfl (by decide) (by decide) (by decide)⟩

/-- C4: a single trailing plus at paren depth 0 forces continuation while a
doubled plus does not: the lines a-plus then b are accumulated and returned
as one unit, whereas the line a-plus-plus alone returns after exactly one
line read, whatever follows it in the stream. -/
theorem spec_c4_theorem :
    (∀ (rest : List Nat) (e : StreamErr),
      ReadMultiline ⟨strBytes "a +\nb\n" ++ rest, e⟩ false =
        ⟨strBytes "a +\nb\n", 0, none⟩) ∧
    (∀ (rest : List Nat) (e : StreamErr),
      ReadMultiline ⟨strBytes "a ++\n" ++ rest, e⟩ false =
        ⟨strBytes "a ++\n", 0, none⟩) :=
  ⟨fun _ _ => rfl, fun _ _ => rfl⟩

/-- Witness for C4 at the empty remainder of the stream and a clean EOF. -/
theorem spec_c4_witness :
    ReadMultiline ⟨strBytes "a +\nb\n" ++ [], StreamErr.eof⟩ false =
        ⟨strBytes "a +\nb\n", 0, none⟩ ∧
    ReadMultiline ⟨strBytes "a ++\n" ++ [], StreamErr.eof⟩ false =
        ⟨strBytes "a ++\n", 0, none⟩ :=
  ⟨spec_c4_theorem.1 [] StreamErr.eof, spec_c4_theorem.2 [] StreamErr.eof⟩

/-- C5: a line ending in the bare keyword if at zero paren depth with no
trailing operator forces one more line to be read (the two lines if and x
come back as one unit, and if alone keeps reading until the stream ends),
while a line ending in return completes without forcing continuation,
whatever follows it in the stream. The reserved-word table itself is
modelled from the spec, since mt.Lookup is outside the inspected source. -/
theorem spec_c5_theorem :
    (ReadMultiline ⟨strBytes "if\nx\n", StreamErr.eof⟩ false =
        ⟨strBytes "if\nx\n", 0, none⟩) ∧
    (ReadMultiline ⟨strBytes "if\n", StreamErr.eof⟩ false =
        ⟨strBytes "if\n", 0, some (ReadErr.ioError StreamErr.eof)⟩) ∧
    (∀ (rest : List Nat) (e : StreamErr),
      ReadMultiline ⟨strBytes "return\n" ++ rest, e⟩ false =
        ⟨strBytes "return\n", 0, none⟩) :=
  ⟨by decide, by decide, fun _ _ => rfl⟩

/-- Witness for C5 at the empty remainder of the stream and a clean EOF. -/
theorem spec_c5_witness :
    ReadMultiline ⟨strBytes "return\n" ++ [], StreamErr.eof⟩ false =
      ⟨strBytes "return\n", 0, none⟩ :=
  spec_c5_theorem.2.2 [] StreamErr.eof

/-- C6: end of stream while parenDepth is positive replaces the clean EOF
with the more specific unexpected end of input error, returned with the
partial text and the first-token offset; any other underlying reader error
is passed through unchanged with the partial text. -/
theorem spec_c6_theorem :
    (ReadMultiline ⟨strBytes "(\n", StreamErr.eof⟩ false =
        ⟨strBytes "(\n", 0, some ReadErr.unexpectedEOF⟩) ∧
    (∀ (code : Nat),
      ReadMultiline ⟨strBytes "(\n", StreamErr.other code⟩ false =
        ⟨strBytes "(\n", 0, some (ReadErr.ioError (StreamErr.other code))⟩) :=
  ⟨by decide, fun _ => rfl⟩

/-- Witness for C6 at the concrete reader error with code 7. -/
theorem spec_c6_witness :
    ReadMultiline ⟨strBytes "(\n", StreamErr.other 7⟩ false =
      ⟨strBytes "(\n", 0, some (ReadErr.ioError (StreamErr.other 7))⟩ :=
  spec_c6_theorem.2 7

/-- C7: for the input consisting solely of a line comment line, with
CollectAllComments disabled ReadMultiline stops immediately after that line
with first-token offset -1, whatever follows in the stream; with the
option enabled it does not stop there and reads further lines (here it
returns only after also consuming the x line, where the first real token
is at offset 18; and on the comment line alone it keeps reading until it
hits the end of the stream). -/
theorem spec_c7_theorem :
    (∀ (rest : List Nat) (e : StreamErr),
      ReadMultiline ⟨strBytes "// just a comment\n" ++ rest, e⟩ false =
        ⟨strBytes "// just a comment\n", -1, none⟩) ∧
    (ReadMultiline ⟨strBytes "// just a comment\nx\n", StreamErr.eof⟩ true =
        ⟨strBytes "// just a comment\nx\n", 18, none⟩) ∧
    (ReadMultiline ⟨strBytes "// just a comment\n", StreamErr.eof⟩ true =
        ⟨strBytes "// just a comment\n", -1, some (ReadErr.ioError StreamErr.eof)⟩) :=
  ⟨fun _ _ => rfl, by decide, by decide⟩

/-- Witness for C7 at the empty remainder of the stream and a clean EOF. -/
theorem spec_c7_witness :
    ReadMultiline ⟨strBytes "// just a comment\n" ++ [], StreamErr.eof⟩ false =
      ⟨strBytes "// just a comment\n", -1, none⟩ :=
  spec_c7_theorem.1 [] StreamErr.eof

/-- C8: a shebang first line is rewritten in place in the accumulated
buffer so that its first two bytes are slashes, the rest of the line is
consumed as a line comment contributing no token (first-token offset stays
-1), the scanner is still in mLineComment at the physical end of line, and
the driver then forcibly resets the mode to mNormal, so the episode
completes after that one line. -/
theorem spec_c8_theorem :
    (scanLine 0 (strBytes "#!/usr/bin/env tool\n") initState =
      LineOut.ok (strBytes "//" ++ (strBytes "#!/usr/bin/env tool\n").drop 2)
        ⟨Mode.mLineComment, 0, false, -1, -1⟩) ∧
    (ReadMultiline ⟨strBytes "#!/usr/bin/env tool\n", StreamErr.eof⟩ false =
      ⟨strBytes "//" ++ (strBytes "#!/usr/bin/env tool\n").drop 2, -1, none⟩) := by
  decide

/-- C9: when mSlash resolves on a character other than slash or star, when
mHash resolves on a character other than the exclamation mark, and for the
single character consumed in mTilde, the resolving character is not
interpreted under the mNormal rules in that step: the processing proceeds
without error, the resulting mode is mNormal (so no literal or comment is
entered), parenDepth is unchanged, and ignorenl is not set by the operator
rule — it is only cleared by the reset rule when parenDepth is nonzero, or
set by the whitespace-after-slash rule, and is otherwise unchanged. -/
theorem spec_c9_theorem :
    ∀ (bufLen i : Nat) (s : ScanState) (c : Nat),
      ((s.m = Mode.mSlash ∧ ¬ c = 47 ∧ ¬ c = 42) ∨
        (s.m = Mode.mHash ∧ ¬ c = 33) ∨ s.m = Mode.mTilde) →
      ∃ s1, procChar bufLen i s c = StepOut.proceed s1 ∧
        s1.m = Mode.mNormal ∧ s1.paren = s.paren ∧
        s1.ignorenl = (if s.paren ≠ 0 then false
                       else if s.m = Mode.mSlash ∧ c ≤ 32 then true else s.ignorenl) := by
  intro bufLen i s c h
  obtain ⟨m0, p0, ig0, ft0, lt0⟩ := s
  rcases h with ⟨hm, h47, h42⟩ | ⟨hm, h33⟩ | hm <;>
    simp only at hm <;> subst hm
  · have hstep : ∃ t, procChar bufLen i ⟨Mode.mSlash, p0, ig0, ft0, lt0⟩ c =
        StepOut.proceed (stepTail bufLen i t c) ∧
        t.m = Mode.mNormal ∧ t.paren = p0 ∧
        t.ignorenl = (if c ≤ 32 then true else ig0) := by
      by_cases hc : c ≤ 32
      · exact ⟨⟨Mode.mNormal, p0, true, ft0, lt0⟩,
          by simp [procChar, stepCore, h47, h42, hc], rfl, rfl, by simp [hc]⟩
      · exact ⟨foundtoken bufLen ((i : Int) - 1) ⟨Mode.mNormal, p0, ig0, ft0, lt0⟩,
          by simp [procChar, stepCore, h47, h42, hc], by simp [foundtoken],
          by simp [foundtoken], by simp [foundtoken, hc]⟩
    obtain ⟨t, ht, htm, htp, hti⟩ := hstep
    refine ⟨stepTail bufLen i t c, ht, ?_, ?_, ?_⟩
    · rw [stepTail_m, htm]
    · rw [stepTail_paren, htp]
    · rw [stepTail_ignorenl, htm, htp, hti]
      by_cases hp : p0 = 0 <;> by_cases hc : c ≤ 32 <;> simp [resetnl, hp, hc]
  · have ht : procChar bufLen i ⟨Mode.mHash, p0, ig0, ft0, lt0⟩ c =
        StepOut.proceed (stepTail bufLen i
          (foundtoken bufLen ((i : Int) - 1) ⟨Mode.mNormal, p0, ig0, ft0, lt0⟩) c) := by
      simp [procChar, stepCore, h33]
    refine ⟨_, ht, ?_, ?_, ?_⟩
    · rw [stepTail_m]; simp [foundtoken]
    · rw [stepTail_paren]; simp [foundtoken]
    · rw [stepTail_ignorenl]
      by_cases hp : p0 = 0 <;> simp [foundtoken, resetnl, hp]
  · have ht : procChar bufLen i ⟨Mode.mTilde, p0, ig0, ft0, lt0⟩ c =
        StepOut.proceed (stepTail bufLen i ⟨Mode.mNormal, p0, ig0, ft0, lt0⟩ c) := by
      simp [procChar, stepCore]
    refine ⟨_, ht, ?_, ?_, ?_⟩
    · rw [stepTail_m]
    · rw [stepTail_paren]
    · rw [stepTail_ignorenl]
      by_cases hp : p0 = 0 <;> simp [resetnl, hp]

/-- Witness for C9: an opening paren right after a pending slash, a pending
hash, or a tilde does not increment parenDepth. -/
theorem spec_c9_witness :
    (∃ s1, procChar 0 1 ⟨Mode.mSlash, 0, false, -1, -1⟩ 40 = StepOut.proceed s1 ∧
      s1.m = Mode.mNormal ∧ s1.paren = 0 ∧
      s1.ignorenl = (if (0 : Int) ≠ 0 then false
                     else if Mode.mSlash = Mode.mSlash ∧ 40 ≤ 32 then true else false)) ∧
    (∃ s1, procChar 0 1 ⟨Mode.mHash, 0, false, -1, -1⟩ 40 = StepOut.proceed s1 ∧
      s1.m = Mode.mNormal ∧ s1.paren = 0 ∧
      s1.ignorenl = (if (0 : Int) ≠ 0 then false
                     else if Mode.mHash = Mode.mSlash ∧ 40 ≤ 32 then true else false)) ∧
    (∃ s1, procChar 0 1 ⟨Mode.mTilde, 0, false, -1, -1⟩ 40 = StepOut.proceed s1 ∧
      s1.m = Mode.mNormal ∧ s1.paren = 0 ∧
      s1.ignorenl = (if (0 : Int) ≠ 0 then false
                     else if Mode.mTilde = Mode.mSlash ∧ 40 ≤ 32 then true else false)) :=
  ⟨spec_c9_theorem 0 1 ⟨Mode.mSlash, 0, false, -1, -1⟩ 40
      (Or.inl ⟨rfl, by decide, by decide⟩),
   spec_c9_theorem 0 1 ⟨Mode.mHash, 0, false, -1, -1⟩ 40
      (Or.inr (Or.inl ⟨rfl, by decide⟩)),
   spec_c9_theorem 0 1 ⟨Mode.mTilde, 0, false, -1, -1⟩ 40
      (Or.inr (Or.inr rfl))⟩

/-- C10: the completion condition treats every parenDepth at most 0,
including negative depths, as balanced: a first line consisting solely of
a closing paren (depth -1, no continuation operator or keyword) completes
the episode after that one line, whatever follows in the stream; and the
unexpected-end-of-input substitution applies only to strictly positive
depth, so end of stream at negative depth returns the plain EOF error. -/
theorem spec_c10_theorem :
    (∀ (rest : List Nat) (e : StreamErr),
      ReadMultiline ⟨strBytes ")\n" ++ rest, e⟩ false =
        ⟨strBytes ")\n", 0, none⟩) ∧
    (ReadMultiline ⟨strBytes ")", StreamErr.eof⟩ false =
        ⟨strBytes ")", 0, some (ReadErr.ioError StreamErr.eof)⟩) :=
  ⟨fun _ _ => rfl, by decide⟩

/-- Witness for C10 at the empty remainder of the stream and a clean EOF. -/
theorem spec_c10_witness :
    ReadMultiline ⟨strBytes ")\n" ++ [], StreamErr.eof⟩ false =
      ⟨strBytes ")\n", 0, none⟩ :=
  spec_c10_theorem.1 [] StreamErr.eof

end Gopyter
